import Mathlib

/-!
Verification development for the `optifier` crate: a compile-time code
generator that, given a record type description, derives a shadow type
whose fields are all optional, a left-biased `merge` operation over two
shadow instances, and a fallible reconstruction (`TryFrom`) back to the
original type with a per-required-field error taxonomy.

The development shallowly embeds the structural data model the generator
consumes (a fragment of `syn`: types, paths, path segments, generic
arguments, attributes, fields) and the generator's own functions from
`src/lib.rs` (`is_option_type`, `is_path_option`, `collect_partial_derives`,
`construct_partial_struct`, `construct_merge_impl_block`,
`construct_tryfrom_impl_block`), together with the runtime semantics of
the functions the generator emits (merge over field vectors, and the
first-failure reconstruction).
-/

set_option autoImplicit false

namespace Optifier

/-- Visibility of a type or a field, kept opaque: the generator copies it
verbatim and never inspects it. -/
inductive Visibility where
  | pub
  | inherited
  | restricted (path : String)
  deriving DecidableEq, Repr

mutual

/-- Structural model of a `syn::Type`, restricted to what the generator
distinguishes: a path type (`Type::Path`, with a possible ignored qualified
self) versus every other type shape, which the generator treats opaquely. -/
inductive Ty where
  | path (qself : Bool) (p : Path)
  | other (id : Nat)

/-- Structural model of `syn::Path`: a leading `::` flag and a segment list. -/
inductive Path where
  | mk (leadingColon : Bool) (segments : List PathSegment)

/-- Structural model of `syn::PathSegment`: an identifier plus its arguments. -/
inductive PathSegment where
  | mk (ident : String) (arguments : PathArguments)

/-- Structural model of `syn::PathArguments`. -/
inductive PathArguments where
  | none
  | angleBracketed (args : List GenericArgument)
  | parenthesized

/-- Structural model of `syn::GenericArgument`: a lifetime, a type, or any
other argument kind (const arguments, bindings, ...), which the generator
never distinguishes. -/
inductive GenericArgument where
  | lifetime (name : String)
  | type (t : Ty)
  | otherArg

end

def Path.leadingColon : Path → Bool
  | Path.mk b _ => b

def Path.segments : Path → List PathSegment
  | Path.mk _ s => s

def PathSegment.ident : PathSegment → String
  | PathSegment.mk i _ => i

def PathSegment.arguments : PathSegment → PathArguments
  | PathSegment.mk _ a => a

/-- Whether `syn::PathArguments` is the `AngleBracketed` constructor: the
`matches!(last.arguments, PathArguments::AngleBracketed(_))` test. -/
def PathArguments.isAngleBracketed : PathArguments → Bool
  | PathArguments.angleBracketed _ => true
  | _ => false

/-- Embeds `is_path_option` (src/lib.rs:181): the last segment's identifier
equals `Option` and its arguments are angle-bracketed. -/
def is_path_option (p : Path) : Bool :=
  match p.segments.getLast? with
  | some last => last.ident == "Option" && last.arguments.isAngleBracketed
  | none => false

/-- Embeds `is_option_type` (src/lib.rs:174): a `Type::Path` whose path
satisfies `is_path_option`; every other type shape yields `false`. -/
def is_option_type : Ty → Bool
  | Ty.path _ p => is_path_option p
  | Ty.other _ => false

/-- One named field of a record struct. In the derive flow the generator only
reaches fields through `syn::FieldsNamed`, where every field carries an
identifier (the `expect` in the source is unreachable), so the identifier is
modelled as a plain string. -/
structure Field where
  vis : Visibility
  ident : String
  ty : Ty

/-- The tokens `::std::option::Option<#f_ty>` the generator emits to wrap a
non-optional field type (src/lib.rs:210). -/
def option_wrap (t : Ty) : Ty :=
  Ty.path false (Path.mk true
    [PathSegment.mk "std" PathArguments.none,
     PathSegment.mk "option" PathArguments.none,
     PathSegment.mk "Option"
       (PathArguments.angleBracketed [GenericArgument.type t])])

/-- One shadow field as emitted by `construct_partial_struct`
(src/lib.rs:197-213): same visibility and identifier; the type is kept
unchanged when `is_option_type` holds and wrapped once otherwise. -/
def partial_field (f : Field) : Field :=
  if is_option_type f.ty then
    Field.mk f.vis f.ident f.ty
  else
    Field.mk f.vis f.ident (option_wrap f.ty)

/-- The emitted shadow struct declaration: derive attribute (if any),
visibility, name, generics and where-clause tokens copied verbatim, and the
shadow field list. -/
structure StructDef where
  deriveAttr : Option (List Path)
  vis : Visibility
  ident : String
  generics : List String
  whereClause : Option String
  fields : List Field

/-- Embeds `construct_partial_struct` (src/lib.rs:189-225). Generics and the
where clause are opaque token strings copied verbatim; the field list is
mapped through `partial_field`. -/
def construct_partial_struct (typeIdent : String) (typeVis : Visibility)
    (fieldsNamed : List Field) (generics : List String)
    (whereClause : Option String) (deriveAttrs : Option (List Path)) :
    StructDef :=
  StructDef.mk deriveAttrs typeVis typeIdent generics whereClause
    (fieldsNamed.map partial_field)

/-- A type-level annotation as the generator sees it: an attribute path and
the flat ordered list of paths parsed out of its nested meta arguments (the
paths pushed by the `parse_nested_meta` callback, src/lib.rs:153-157). -/
structure Attribute where
  path : Path
  nestedPaths : List Path

/-- Embeds `syn::Path::is_ident`: true exactly when the path has no leading
`::`, exactly one segment, that segment carries no arguments, and its
identifier equals the given name. -/
def path_is_ident (p : Path) (name : String) : Bool :=
  !p.leadingColon &&
    (match p.segments with
     | [seg] =>
       seg.ident == name &&
         (match seg.arguments with
          | PathArguments.none => true
          | _ => false)
     | _ => false)

/-- Embeds the scan loop of `collect_partial_derives` (src/lib.rs:144-158):
walk the attributes in order, and for each attribute whose path
`is_ident("partial_derive")`, append its nested meta paths in written order
(no deduplication). -/
def collect_partial_derives (attrs : List Attribute) : List Path :=
  attrs.flatMap fun a =>
    if path_is_ident a.path "partial_derive" then a.nestedPaths else []

/-- Embeds the tail of `collect_partial_derives` (src/lib.rs:160-165): an
empty collected list yields no derive attribute at all; a non-empty list
yields one `#[derive(...)]` attribute carrying the collected paths. -/
def maybe_derive_attr (attrs : List Attribute) : Option (List Path) :=
  let derives := collect_partial_derives attrs
  if derives.isEmpty then none else some derives

/-- Modelled from the spec: the field-name case conversion comes from the
external `convert_case` crate (`Case::Pascal`), whose source is not part of
this repository. The spec describes it as converting the field name "to a
word-capitalized form", e.g. field `user_id` yields `UserId`: split the
identifier on underscores, capitalize the first letter of each word,
lowercase the rest, and concatenate. -/
def capitalize_word : List Char → List Char
  | [] => []
  | c :: cs => c.toUpper :: cs.map Char.toLower

/-- Modelled from the spec: splitting an identifier's characters on
underscores (see `capitalize_word` for the source of this model). -/
def split_on_underscore : List Char → List (List Char)
  | [] => [[]]
  | c :: cs =>
    if c = '_' then [] :: split_on_underscore cs
    else
      match split_on_underscore cs with
      | [] => [[c]]
      | w :: ws => (c :: w) :: ws

/-- Modelled from the spec: Pascal-case conversion of an identifier (see
`capitalize_word` for the source of this model). -/
def to_pascal_case (s : String) : String :=
  String.mk (((split_on_underscore s.data).map capitalize_word).flatten)

/-- The error-case name the generator builds for a required-origin field,
`format!("{}Missing", f_name_in_pascal_case)` (src/lib.rs:291-294 and
again, independently, src/lib.rs:319-323). -/
def variant_name_of (fieldIdent : String) : String :=
  to_pascal_case fieldIdent ++ "Missing"

/-- One variant of the generated error enum: its identifier and the field
name interpolated into its `#[error(...)]` message template. -/
structure ErrorVariant where
  name : String
  messageField : String
  deriving DecidableEq, Repr

/-- Embeds the `error_variants` filter-map of `construct_tryfrom_impl_block`
(src/lib.rs:277-300): fields whose type is already `Option<...>` produce no
variant; every other field produces a `PascalCase(name) + "Missing"` variant
whose message names the field. -/
def error_variants (fields : List Field) : List ErrorVariant :=
  fields.filterMap fun f =>
    if is_option_type f.ty then
      none
    else
      some (ErrorVariant.mk (to_pascal_case f.ident ++ "Missing") f.ident)

/-- The declaration-level content of the generated `TryFrom` block: the error
enum's name and its variant list. The runtime behaviour of the generated
conversion is modelled separately by `try_from_fields`. -/
structure TryFromImplBlock where
  origIdent : String
  errorIdent : String
  errorVariants : List ErrorVariant

/-- Embeds the declaration-level part of `construct_tryfrom_impl_block`
(src/lib.rs:265-356): the error enum is named `format_ident!("{}Error",
partial_ident)` and holds one variant per non-`Option` field. -/
def construct_tryfrom_impl_block (origIdent : String) (partialIdent : String)
    (fields : List Field) : TryFromImplBlock :=
  TryFromImplBlock.mk origIdent (partialIdent ++ "Error") (error_variants fields)

/-- Renders `syn`'s `TypeGenerics` token output for a parameter list: nothing
when there are no parameters, otherwise the comma-separated parameters in
angle brackets. -/
def render_ty_generics : List String → String
  | [] => ""
  | p :: ps => "<" ++ String.intercalate ", " (p :: ps) ++ ">"

/-- The token-level content of the generated merge impl block
(src/lib.rs:227-258): the impl's self type is `#type_ident #ty_generics`,
the `other` parameter of `merge` is typed with the bare `#type_ident`
(src/lib.rs:246), and the body merges the fields in declaration order. -/
structure MergeImplBlock where
  implSelfTy : String
  otherParamTy : String
  mergedFieldNames : List String

/-- Embeds `construct_merge_impl_block` (src/lib.rs:227-258) at the token
level. -/
def construct_merge_impl_block (typeIdent : String) (tyGenerics : List String)
    (fields : List Field) : MergeImplBlock :=
  MergeImplBlock.mk (typeIdent ++ render_ty_generics tyGenerics) typeIdent
    (fields.map Field.ident)

/-- The structural input of the derive macro, restricted to the accepted
shape (a struct with named fields; any other shape panics before synthesis
and generates nothing). -/
structure DeriveInput where
  vis : Visibility
  ident : String
  generics : List String
  whereClause : Option String
  attrs : List Attribute
  fields : List Field

/-- The three artifacts the derive macro emits. -/
structure GeneratedCode where
  partialStruct : StructDef
  mergeImpl : MergeImplBlock
  tryFromImpl : TryFromImplBlock

/-- Embeds the `derive_partial` entry point (src/lib.rs:59-120) on an
accepted input shape: build `#orig_ident ++ "Partial"`, collect the derive
list, and run the three constructors. -/
def derive_partial_output (input : DeriveInput) : GeneratedCode :=
  let partialIdent := input.ident ++ "Partial"
  GeneratedCode.mk
    (construct_partial_struct partialIdent input.vis input.fields
      input.generics input.whereClause (maybe_derive_attr input.attrs))
    (construct_merge_impl_block partialIdent input.generics input.fields)
    (construct_tryfrom_impl_block input.ident partialIdent input.fields)

/-! ## Runtime semantics of the generated code

A shadow-type instance is modelled as the list of its field values in
declaration order; each value is an `Option α` (field value types are
irrelevant to the merge/reconstruction logic, which is uniform per field, so
a single value type `α` stands for all of them). -/

/-- Semantics of the generated `merge` (src/lib.rs:240-251): the body is
`Self { f: self.f.or(other.f), ... }`, i.e. per-field `Option::or`. -/
def merge_insts {α : Type} (a b : List (Option α)) : List (Option α) :=
  List.zipWith Option.or a b

/-- A field value of the reconstructed original struct: required-origin
fields hold a bare value, optional-origin fields hold an `Option`. -/
inductive FieldVal (α : Type) where
  | req (v : α)
  | opt (v : Option α)
  deriving DecidableEq, Repr

/-- Semantics of the generated `try_from` body (src/lib.rs:306-349): the
struct literal's field initializers run in declaration order; a
required-origin field evaluates `partial.f.ok_or(Error::Variant)?`, so the
first absent required field aborts with its variant and later fields are not
reached; an optional-origin field passes `partial.f` through unchanged. The
error is identified by the variant name built at src/lib.rs:319-323. The
generated code always receives exactly one value per field, so the
mismatched-length cases below are unreachable. -/
def try_from_fields {α : Type} :
    List Field → List (Option α) → Except String (List (FieldVal α))
  | [], _ => Except.ok []
  | _ :: _, [] => Except.ok []
  | f :: fs, v :: vs =>
    if is_option_type f.ty then
      match try_from_fields fs vs with
      | Except.ok rest => Except.ok (FieldVal.opt v :: rest)
      | Except.error e => Except.error e
    else
      match v with
      | some x =>
        match try_from_fields fs vs with
        | Except.ok rest => Except.ok (FieldVal.req x :: rest)
        | Except.error e => Except.error e
      | none => Except.error (to_pascal_case f.ident ++ "Missing")

/-- Whether an `Except` value is a success. -/
def except_ok {ε α : Type} : Except ε α → Bool
  | Except.ok _ => true
  | Except.error _ => false

/-- Index of the first field, in declaration order, that is required-origin
and absent in the given instance; a specification-side device for stating
the first-failure-wins property. -/
def first_missing_idx {α : Type} : List Field → List (Option α) → Option Nat
  | [], _ => none
  | _ :: _, [] => none
  | f :: fs, v :: vs =>
    if !is_option_type f.ty && v.isNone then some 0
    else (first_missing_idx fs vs).map fun n => n + 1

/-- The optionalness classifier as claim C7's words describe it: true iff
the type is structurally a path type whose final segment is named exactly
`Option` applied to at least one type argument supplied via angle-bracketed
generic-argument syntax. Stated from the claim, to be compared with
`is_option_type`, which is translated from the source. -/
def claimed_is_option_type (t : Ty) : Bool :=
  match t with
  | Ty.path _ p =>
    match p.segments.getLast? with
    | some last =>
      last.ident == "Option" &&
        (match last.arguments with
         | PathArguments.angleBracketed args =>
           args.any fun a =>
             match a with
             | GenericArgument.type _ => true
             | _ => false
         | _ => false)
    | none => false
  | Ty.other _ => false

/-! ## Concrete fixtures

The example type from `examples/playground.rs` and a few further concrete
inputs used by witnesses and counterexamples. -/

/-- The type `Option<T>` as written in user source: a single unqualified
segment named `Option` with one angle-bracketed type argument. -/
def plain_option (t : Ty) : Ty :=
  Ty.path false (Path.mk false
    [PathSegment.mk "Option" (PathArguments.angleBracketed [GenericArgument.type t])])

/-- The written type `i32`. -/
def ty_i32 : Ty :=
  Ty.path false (Path.mk false [PathSegment.mk "i32" PathArguments.none])

/-- The written type `String`. -/
def ty_string : Ty :=
  Ty.path false (Path.mk false [PathSegment.mk "String" PathArguments.none])

/-- The fields of `TestType` from `examples/playground.rs`. -/
def ex_fields : List Field :=
  [Field.mk Visibility.inherited "field_i32" ty_i32,
   Field.mk Visibility.inherited "field_string" ty_string,
   Field.mk Visibility.inherited "field_option_string" (plain_option ty_string)]

/-- A field list whose fields are all already optional. -/
def ex_all_optional_fields : List Field :=
  [Field.mk Visibility.inherited "note" (plain_option ty_string),
   Field.mk Visibility.pub "extra" (plain_option ty_i32)]

/-- The written type `Option<>`: final segment named `Option` with
angle-bracketed generic-argument syntax but zero arguments. This is legal
Rust surface syntax in type position and parses under `syn`. -/
def cex_option_no_args : Ty :=
  Ty.path false (Path.mk false
    [PathSegment.mk "Option" (PathArguments.angleBracketed [])])

/-- A bare single-identifier path. -/
def path_of_ident (s : String) : Path :=
  Path.mk false [PathSegment.mk s PathArguments.none]

/-- The annotation `#[optifier::partial_derive(Debug)]`: the qualified-path
spelling shown in the crate's own documentation. -/
def ex_qualified_attr : Attribute :=
  Attribute.mk
    (Path.mk false
      [PathSegment.mk "optifier" PathArguments.none,
       PathSegment.mk "partial_derive" PathArguments.none])
    [path_of_ident "Debug"]

/-- The annotation `#[partial_derive(Debug, Clone, Debug)]`: unqualified
path, with a duplicated argument. -/
def ex_matched_attr : Attribute :=
  Attribute.mk (path_of_ident "partial_derive")
    [path_of_ident "Debug", path_of_ident "Clone", path_of_ident "Debug"]

/-! ## Helper lemmas -/

theorem partial_field_eq (f : Field) :
    partial_field f = Field.mk f.vis f.ident
      (if is_option_type f.ty then f.ty else option_wrap f.ty) := by
  cases h : is_option_type f.ty <;> simp [partial_field, h]

theorem error_variants_eq_filter (fields : List Field) :
    error_variants fields =
      (fields.filter fun f => !is_option_type f.ty).map
        (fun f => ErrorVariant.mk (to_pascal_case f.ident ++ "Missing") f.ident) := by
  induction fields with
  | nil => rfl
  | cons f fs ih =>
    cases h : is_option_type f.ty <;>
      simp [error_variants, List.filterMap_cons, List.filter_cons, h] <;>
      simpa [error_variants] using ih

/-! ## Claim theorems -/

/-- C1: for every record type description, the shadow type generated by
`construct_partial_struct` has exactly as many fields as the original, and
the field at each index keeps the original identifier and visibility; its
type is the original type unchanged when the classifier accepts it and the
original type wrapped once in `Option` otherwise. -/
theorem partial_struct_field_transform (typeIdent : String) (typeVis : Visibility)
    (fields : List Field) (generics : List String) (whereClause : Option String)
    (deriveAttrs : Option (List Path)) :
    (construct_partial_struct typeIdent typeVis fields generics whereClause
        deriveAttrs).fields.length = fields.length
    ∧ ∀ (i : Nat) (f : Field), fields[i]? = some f →
        (construct_partial_struct typeIdent typeVis fields generics whereClause
            deriveAttrs).fields[i]?
          = some (Field.mk f.vis f.ident
              (if is_option_type f.ty then f.ty else option_wrap f.ty)) := by
  refine ⟨by simp [construct_partial_struct], ?_⟩
  intro i f hf
  simp [construct_partial_struct, List.getElem?_map, hf, partial_field_eq]

/-- Witness for C1 at the example type: the required field `field_i32` is
wrapped, i.e. shadow field 0 is `field_i32: ::std::option::Option<i32>`. -/
theorem partial_struct_field_transform_witness :
    (construct_partial_struct "TestTypePartial" Visibility.inherited ex_fields
        [] none none).fields[0]?
      = some (Field.mk Visibility.inherited "field_i32" (option_wrap ty_i32)) :=
  (partial_struct_field_transform "TestTypePartial" Visibility.inherited ex_fields
      [] none none).2 0 (Field.mk Visibility.inherited "field_i32" ty_i32) rfl

/-- C5: the generated error taxonomy has exactly one case per
required-origin field, in the original relative order, none for
optional-origin fields; its case count equals the required-field count, and
an all-optional field list yields an empty taxonomy. -/
theorem error_taxonomy_cases (fields : List Field) :
    error_variants fields =
      (fields.filter fun f => !is_option_type f.ty).map
        (fun f => ErrorVariant.mk (to_pascal_case f.ident ++ "Missing") f.ident)
    ∧ (error_variants fields).length
        = (fields.filter fun f => !is_option_type f.ty).length
    ∧ ((∀ f ∈ fields, is_option_type f.ty = true) → error_variants fields = []) := by
  refine ⟨error_variants_eq_filter fields, ?_, ?_⟩
  · rw [error_variants_eq_filter, List.length_map]
  · intro hall
    rw [error_variants_eq_filter]
    have : fields.filter (fun f => !is_option_type f.ty) = [] := by
      rw [List.filter_eq_nil_iff]
      intro f hf
      simp [hall f hf]
    simp [this]

/-- Witness for C5: the all-optional example taxonomy is empty. -/
theorem error_taxonomy_cases_witness :
    error_variants ex_all_optional_fields = [] :=
  (error_taxonomy_cases ex_all_optional_fields).2.2 (by decide)

/-- C6: naming contract. The shadow type's name is the original name with
suffix `Partial`; the error taxonomy's name is the shadow name with suffix
`Error`; each error case's name is the Pascal-case conversion of its field
name with suffix `Missing`; in particular field `user_id` yields case
`UserIdMissing`. -/
theorem naming_contract (input : DeriveInput) :
    (derive_partial_output input).partialStruct.ident = input.ident ++ "Partial"
    ∧ (derive_partial_output input).tryFromImpl.errorIdent
        = (derive_partial_output input).partialStruct.ident ++ "Error"
    ∧ (derive_partial_output input).tryFromImpl.errorVariants.map ErrorVariant.name
        = (input.fields.filter fun f => !is_option_type f.ty).map
            (fun f => to_pascal_case f.ident ++ "Missing")
    ∧ to_pascal_case "user_id" ++ "Missing" = "UserIdMissing" := by
  refine ⟨rfl, rfl, ?_, by decide⟩
  show (error_variants input.fields).map ErrorVariant.name = _
  rw [error_variants_eq_filter, List.map_map]
  rfl

/-- C7 counterexample: at the written type `Option<>` (angle-bracketed
syntax with zero arguments) the classifier returns `true`, while the claim's
"applied to at least one type argument" condition is false, so the claim as
stated fails on this input. -/
theorem classifier_claim_counterexample :
    is_option_type cex_option_no_args = true
      ∧ claimed_is_option_type cex_option_no_args = false :=
  ⟨rfl, rfl⟩

/-- C7 amended: the classifier is a total boolean function of the declared
type alone, and returns `true` iff the type is structurally a path type
whose final segment is named exactly `Option` (case-sensitive) and carries
angle-bracketed generic-argument syntax — regardless of how many arguments,
or of what kind, appear between the brackets. No alias resolution is
performed: any path whose final segment is not literally `Option` is
classified `false`. -/
theorem is_option_type_characterization (t : Ty) :
    is_option_type t = true ↔
      ∃ q p last, t = Ty.path q p ∧ p.segments.getLast? = some last ∧
        last.ident = "Option" ∧
        ∃ args, last.arguments = PathArguments.angleBracketed args := by
  cases t with
  | other n => simp [is_option_type]
  | path q p =>
    have hop : is_option_type (Ty.path q p) = is_path_option p := rfl
    rw [hop]
    constructor
    · intro h
      unfold is_path_option at h
      split at h
      next last hlast =>
        have hparts := (Bool.and_eq_true _ _).mp h
        have hident : last.ident = "Option" := eq_of_beq hparts.1
        have hargs : ∃ args, last.arguments = PathArguments.angleBracketed args := by
          have hb := hparts.2
          cases harg : last.arguments <;> rw [harg] at hb <;>
            simp [PathArguments.isAngleBracketed] at hb
          exact ⟨_, rfl⟩
        exact ⟨q, p, last, rfl, hlast, hident, hargs⟩
      next => exact absurd h (by simp)
    · rintro ⟨q2, p2, last, heq, hlast, hident, args, hargs⟩
      injection heq with hq hp
      subst hp
      unfold is_path_option
      rw [hlast]
      simp [hident, hargs, PathArguments.isAngleBracketed]

/-- C9: the derive-list collector matches only annotations whose attribute
path is exactly the single unqualified identifier `partial_derive`. A path
with two or more segments (such as `optifier::partial_derive`) never
matches, and when nothing matches the shadow type gets no derive attribute;
a matched annotation contributes its argument paths verbatim, in written
order, with no deduplication. -/
theorem collect_derives_matching (attrs : List Attribute) :
    (∀ (lc : Bool) (s1 s2 : PathSegment) (rest : List PathSegment) (name : String),
        path_is_ident (Path.mk lc (s1 :: s2 :: rest)) name = false)
    ∧ ((∀ a ∈ attrs, path_is_ident a.path "partial_derive" = false) →
        collect_partial_derives attrs = [] ∧ maybe_derive_attr attrs = none)
    ∧ (∀ pre a post, attrs = pre ++ a :: post →
        path_is_ident a.path "partial_derive" = true →
        collect_partial_derives attrs =
          collect_partial_derives pre ++ a.nestedPaths ++ collect_partial_derives post) := by
  refine ⟨?_, ?_, ?_⟩
  · intro lc s1 s2 rest name
    simp [path_is_ident, Path.segments, Path.leadingColon]
  · intro hall
    have hnil : collect_partial_derives attrs = [] := by
      unfold collect_partial_derives
      rw [List.flatMap_eq_nil_iff]
      intro a ha
      simp [hall a ha]
    refine ⟨hnil, ?_⟩
    unfold maybe_derive_attr
    simp [hnil]
  · intro pre a post hsplit hmatch
    subst hsplit
    unfold collect_partial_derives
    rw [List.flatMap_append, List.flatMap_cons, hmatch]
    simp

/-- Witness for C9: the documentation's own qualified spelling
`#[optifier::partial_derive(Debug)]` collects nothing and emits no derive
attribute, while `#[partial_derive(Debug, Clone, Debug)]` contributes
`Debug, Clone, Debug` verbatim. -/
theorem collect_derives_matching_witness :
    (collect_partial_derives [ex_qualified_attr] = []
      ∧ maybe_derive_attr [ex_qualified_attr] = none)
    ∧ collect_partial_derives [ex_matched_attr] =
        collect_partial_derives [] ++ ex_matched_attr.nestedPaths
          ++ collect_partial_derives [] :=
  ⟨(collect_derives_matching [ex_qualified_attr]).2.1 (by decide),
   (collect_derives_matching [ex_matched_attr]).2.2 [] ex_matched_attr [] rfl
     (by decide)⟩

/-- C10: in the generated merge signature the `other` parameter's type is
the bare shadow-type identifier with no generic arguments; it coincides with
the applied self type exactly when the input declares no generic or lifetime
parameters, and differs textually from it whenever parameters are present. -/
theorem merge_other_param_unapplied (typeIdent : String) (tyGenerics : List String)
    (fields : List Field) :
    (construct_merge_impl_block typeIdent tyGenerics fields).otherParamTy = typeIdent
    ∧ (tyGenerics = [] →
        (construct_merge_impl_block typeIdent tyGenerics fields).otherParamTy
          = (construct_merge_impl_block typeIdent tyGenerics fields).implSelfTy)
    ∧ (tyGenerics ≠ [] →
        (construct_merge_impl_block typeIdent tyGenerics fields).otherParamTy
          ≠ (construct_merge_impl_block typeIdent tyGenerics fields).implSelfTy) := by
  refine ⟨rfl, ?_, ?_⟩
  · intro h
    subst h
    show typeIdent = typeIdent ++ ""
    simp
  · intro h heq
    cases tyGenerics with
    | nil => exact h rfl
    | cons p ps =>
      have hlen := congrArg String.length heq
      simp only [construct_merge_impl_block, render_ty_generics] at hlen
      rw [String.length_append] at hlen
      have hr : ("<" ++ String.intercalate ", " (p :: ps) ++ ">").length
          = (String.intercalate ", " (p :: ps)).length + 2 := by
        rw [String.length_append, String.length_append]
        have h1 : "<".length = 1 := rfl
        have h2 : ">".length = 1 := rfl
        omega
      rw [hr] at hlen
      omega

/-- Witness for C10: for the non-generic example the two spellings coincide;
for a shadow type with one parameter they differ. -/
theorem merge_other_param_unapplied_witness :
    ((construct_merge_impl_block "TestTypePartial" [] ex_fields).otherParamTy
       = (construct_merge_impl_block "TestTypePartial" [] ex_fields).implSelfTy)
    ∧ ((construct_merge_impl_block "FooPartial" ["T"] ex_fields).otherParamTy
       ≠ (construct_merge_impl_block "FooPartial" ["T"] ex_fields).implSelfTy) :=
  ⟨(merge_other_param_unapplied "TestTypePartial" [] ex_fields).2.1 rfl,
   (merge_other_param_unapplied "FooPartial" ["T"] ex_fields).2.2 (by decide)⟩

theorem or_eq_ite {α : Type} (x y : Option α) :
    x.or y = if x.isSome then x else y := by
  cases x <;> rfl

theorem zipWith_getElem_some {α β γ : Type} (f : α → β → γ) :
    ∀ (a : List α) (b : List β) (i : Nat) (x : α) (y : β),
      a[i]? = some x → b[i]? = some y →
      (List.zipWith f a b)[i]? = some (f x y)
  | [], _, _, _, _, hx, _ => by simp at hx
  | _ :: _, [], _, _, _, _, hy => by simp at hy
  | xa :: as2, yb :: bs, 0, x, y, hx, hy => by
    simp at hx hy
    subst hx
    subst hy
    simp
  | xa :: as2, yb :: bs, i + 1, x, y, hx, hy => by
    simp only [List.getElem?_cons_succ] at hx hy
    simpa [List.zipWith] using zipWith_getElem_some f as2 bs i x y hx hy

/-- C2: the generated merge is a total function of the two shadow instances
(it yields a full instance of the same field count, with no error case), and
it is left-biased: every field of the result is the left operand's value
when that value is present, and the right operand's value otherwise,
uniformly over all fields. -/
theorem merge_total_left_biased {α : Type} (a b : List (Option α))
    (h : a.length = b.length) :
    (merge_insts a b).length = a.length
    ∧ ∀ (i : Nat) (x y : Option α), a[i]? = some x → b[i]? = some y →
        (merge_insts a b)[i]? = some (if x.isSome then x else y) := by
  constructor
  · simp [merge_insts, List.length_zipWith, h]
  · intro i x y hx hy
    unfold merge_insts
    rw [zipWith_getElem_some Option.or a b i x y hx hy, or_eq_ite]

/-- Witness for C2 at the example from `examples/playground.rs`: merging
`[none, some 2, none]` with `[some 1, none, some 3]` keeps length 3, and is
left-biased on both an absent and a present left field. -/
theorem merge_total_left_biased_witness :
    (merge_insts ([none, some 2, none] : List (Option Nat))
        [some 1, none, some 3]).length = 3
    ∧ (merge_insts ([none, some 2, none] : List (Option Nat))
        [some 1, none, some 3])[0]? = some (some 1)
    ∧ (merge_insts ([none, some 2, none] : List (Option Nat))
        [some 1, none, some 3])[1]? = some (some 2) := by
  have h := merge_total_left_biased
    ([none, some 2, none] : List (Option Nat)) [some 1, none, some 3] rfl
  exact ⟨h.1, h.2 0 none (some 1) rfl rfl, h.2 1 (some 2) none rfl rfl⟩

/-- C8: self-merge is the identity on shadow instances: `merge(A, A)` is
field-by-field equal to `A`. -/
theorem merge_self_idempotent {α : Type} (a : List (Option α)) :
    merge_insts a a = a := by
  induction a with
  | nil => rfl
  | cons x xs ih =>
    have hx : x.or x = x := by cases x <;> rfl
    show x.or x :: List.zipWith Option.or xs xs = x :: xs
    rw [hx]
    exact congrArg (List.cons x) ih

theorem try_from_cons_ok_tail {α : Type} (f0 : Field) (fs : List Field)
    (v0 : Option α) (vs : List (Option α))
    (hok : except_ok (try_from_fields (f0 :: fs) (v0 :: vs)) = true) :
    except_ok (try_from_fields fs vs) = true := by
  cases hopt : is_option_type f0.ty <;> cases v0 <;>
    cases htf : try_from_fields fs vs <;>
      simp [try_from_fields, hopt, htf, except_ok] at hok ⊢

theorem try_from_ok_required_present {α : Type} :
    ∀ (fields : List Field) (vals : List (Option α)),
      except_ok (try_from_fields fields vals) = true →
      ∀ (i : Nat) (f : Field) (v : Option α),
        fields[i]? = some f → vals[i]? = some v →
        is_option_type f.ty = false → v.isSome = true
  | [], _, _ => by
    intro i f v hf hv _
    simp at hf
  | _ :: _, [], _ => by
    intro i f v hf hv _
    simp at hv
  | f0 :: fs, v0 :: vs, hok => by
    intro i f v hf hv hreq
    cases i with
    | zero =>
      have hf0 : f = f0 := by simpa using hf.symm
      have hv0 : v = v0 := by simpa using hv.symm
      subst hf0
      subst hv0
      cases v with
      | some x => rfl
      | none => simp [try_from_fields, hreq, except_ok] at hok
    | succ i =>
      simp only [List.getElem?_cons_succ] at hf hv
      exact try_from_ok_required_present fs vs
        (try_from_cons_ok_tail f0 fs v0 vs hok) i f v hf hv hreq

theorem try_from_ok_of_required_present {α : Type} :
    ∀ (fields : List Field) (vals : List (Option α)),
      (∀ (i : Nat) (f : Field) (v : Option α),
        fields[i]? = some f → vals[i]? = some v →
        is_option_type f.ty = false → v.isSome = true) →
      except_ok (try_from_fields fields vals) = true
  | [], vals, _ => by cases vals <;> rfl
  | _ :: _, [], _ => rfl
  | f0 :: fs, v0 :: vs, hall => by
    have htail : ∀ (i : Nat) (f : Field) (v : Option α),
        fs[i]? = some f → vs[i]? = some v →
        is_option_type f.ty = false → v.isSome = true := by
      intro i f v hf hv hreq
      exact hall (i + 1) f v (by simpa using hf) (by simpa using hv) hreq
    have ih := try_from_ok_of_required_present fs vs htail
    cases hopt : is_option_type f0.ty with
    | true =>
      cases htf : try_from_fields fs vs with
      | ok rest => simp [try_from_fields, hopt, htf, except_ok]
      | error e => rw [htf] at ih; simp [except_ok] at ih
    | false =>
      have h0 : v0.isSome = true := hall 0 f0 v0 (by simp) (by simp) hopt
      cases v0 with
      | none => simp at h0
      | some x =>
        cases htf : try_from_fields fs vs with
        | ok rest => simp [try_from_fields, hopt, htf, except_ok]
        | error e => rw [htf] at ih; simp [except_ok] at ih

theorem try_from_ok_values {α : Type} :
    ∀ (fields : List Field) (vals : List (Option α)) (out : List (FieldVal α)),
      vals.length = fields.length →
      try_from_fields fields vals = Except.ok out →
      out.length = fields.length ∧
      ∀ (i : Nat) (f : Field) (v : Option α),
        fields[i]? = some f → vals[i]? = some v →
        (is_option_type f.ty = true → out[i]? = some (FieldVal.opt v)) ∧
        (is_option_type f.ty = false →
          ∃ x, v = some x ∧ out[i]? = some (FieldVal.req x))
  | [], [], out, _, hok => by
    have hout : [] = out := by simpa [try_from_fields] using hok
    subst hout
    refine ⟨rfl, ?_⟩
    intro i f v hf
    simp at hf
  | _ :: _, [], _, hlen, _ => by simp at hlen
  | f0 :: fs, v0 :: vs, out, hlen, hok => by
    have hlen2 : vs.length = fs.length := by simpa using hlen
    cases hopt : is_option_type f0.ty with
    | true =>
      cases htf : try_from_fields fs vs with
      | error e => simp [try_from_fields, hopt, htf] at hok
      | ok rest =>
        have hout : FieldVal.opt v0 :: rest = out := by
          simpa [try_from_fields, hopt, htf] using hok
        subst hout
        obtain ⟨ihlen, ihvals⟩ := try_from_ok_values fs vs rest hlen2 htf
        refine ⟨by simp [ihlen], ?_⟩
        intro i f v hf hv
        cases i with
        | zero =>
          have hf0 : f = f0 := by simpa using hf.symm
          have hv0 : v = v0 := by simpa using hv.symm
          subst hf0
          subst hv0
          refine ⟨fun _ => by simp, fun hreq => ?_⟩
          rw [hopt] at hreq
          simp at hreq
        | succ i =>
          simp only [List.getElem?_cons_succ] at hf hv ⊢
          exact ihvals i f v hf hv
    | false =>
      cases v0 with
      | none => simp [try_from_fields, hopt] at hok
      | some x =>
        cases htf : try_from_fields fs vs with
        | error e => simp [try_from_fields, hopt, htf] at hok
        | ok rest =>
          have hout : FieldVal.req x :: rest = out := by
            simpa [try_from_fields, hopt, htf] using hok
          subst hout
          obtain ⟨ihlen, ihvals⟩ := try_from_ok_values fs vs rest hlen2 htf
          refine ⟨by simp [ihlen], ?_⟩
          intro i f v hf hv
          cases i with
          | zero =>
            have hf0 : f = f0 := by simpa using hf.symm
            have hv0 : v = some x := by simpa using hv.symm
            subst hf0
            subst hv0
            refine ⟨fun hoptT => ?_, fun _ => ⟨x, rfl, by simp⟩⟩
            rw [hopt] at hoptT
            simp at hoptT
          | succ i =>
            simp only [List.getElem?_cons_succ] at hf hv ⊢
            exact ihvals i f v hf hv

/-- C3: on same-shape inputs, the generated reconstruction succeeds iff
every required-origin field of the shadow instance is present; on success
the output has one value per field, each required-origin field of the
result equals the present value from the shadow instance, and each
optional-origin field is passed through unchanged, present or absent. -/
theorem try_from_success_characterization {α : Type} (fields : List Field)
    (vals : List (Option α)) (h : vals.length = fields.length) :
    (except_ok (try_from_fields fields vals) = true ↔
      ∀ (i : Nat) (f : Field) (v : Option α),
        fields[i]? = some f → vals[i]? = some v →
        is_option_type f.ty = false → v.isSome = true)
    ∧ ∀ out, try_from_fields fields vals = Except.ok out →
        out.length = fields.length ∧
        ∀ (i : Nat) (f : Field) (v : Option α),
          fields[i]? = some f → vals[i]? = some v →
          (is_option_type f.ty = true → out[i]? = some (FieldVal.opt v)) ∧
          (is_option_type f.ty = false →
            ∃ x, v = some x ∧ out[i]? = some (FieldVal.req x)) :=
  ⟨⟨try_from_ok_required_present fields vals,
    try_from_ok_of_required_present fields vals⟩,
   fun out hok => try_from_ok_values fields vals out h hok⟩

/-- Witness for C3 at the example type with `[some 1, some 2, none]`:
reconstruction succeeds (first conjunct exercises the iff at a present
required field) and the successful output `[req 1, req 2, opt none]` has one
value per field. -/
theorem try_from_success_characterization_witness :
    ((some 1 : Option Nat).isSome = true)
    ∧ ([FieldVal.req 1, FieldVal.req 2, FieldVal.opt (none : Option Nat)].length
        = ex_fields.length) := by
  have h := try_from_success_characterization ex_fields
      ([some 1, some 2, none] : List (Option Nat)) rfl
  refine ⟨h.1.mp rfl 0 (Field.mk Visibility.inherited "field_i32" ty_i32)
    (some 1) rfl rfl rfl, ?_⟩
  exact (h.2 [FieldVal.req 1, FieldVal.req 2, FieldVal.opt none] rfl).1

theorem try_from_error_at_first_missing {α : Type} :
    ∀ (fields : List Field) (vals : List (Option α)) (i : Nat),
      first_missing_idx fields vals = some i →
      ∃ f, fields[i]? = some f ∧ is_option_type f.ty = false ∧
        vals[i]? = some none ∧
        try_from_fields fields vals
          = Except.error (to_pascal_case f.ident ++ "Missing")
  | [], vals, i, hmiss => by
    cases vals <;> simp [first_missing_idx] at hmiss
  | _ :: _, [], i, hmiss => by simp [first_missing_idx] at hmiss
  | f0 :: fs, v0 :: vs, i, hmiss => by
    cases hopt : is_option_type f0.ty with
    | false =>
      cases v0 with
      | none =>
        simp only [first_missing_idx] at hmiss
        rw [hopt] at hmiss
        simp at hmiss
        subst hmiss
        exact ⟨f0, by simp, hopt, by simp, by simp [try_from_fields, hopt]⟩
      | some x =>
        simp only [first_missing_idx] at hmiss
        rw [hopt] at hmiss
        simp [Option.map_eq_some'] at hmiss
        obtain ⟨i0, hi0, hi⟩ := hmiss
        subst hi
        obtain ⟨f, hf, hreq, hv, htry⟩ :=
          try_from_error_at_first_missing fs vs i0 hi0
        exact ⟨f, by simpa using hf, hreq, by simpa using hv,
          by simp [try_from_fields, hopt, htry]⟩
    | true =>
      simp only [first_missing_idx] at hmiss
      rw [hopt] at hmiss
      simp [Option.map_eq_some'] at hmiss
      obtain ⟨i0, hi0, hi⟩ := hmiss
      subst hi
      obtain ⟨f, hf, hreq, hv, htry⟩ :=
        try_from_error_at_first_missing fs vs i0 hi0
      exact ⟨f, by simpa using hf, hreq, by simpa using hv,
        by simp [try_from_fields, hopt, htry]⟩

theorem first_missing_agrees {α : Type} :
    ∀ (fields : List Field) (vals vals2 : List (Option α)) (i : Nat),
      first_missing_idx fields vals = some i →
      vals2.length = vals.length →
      (∀ j, j ≤ i → vals2[j]? = vals[j]?) →
      first_missing_idx fields vals2 = some i
  | [], vals, _, i, hmiss, _, _ => by
    cases vals <;> simp [first_missing_idx] at hmiss
  | _ :: _, [], _, i, hmiss, _, _ => by simp [first_missing_idx] at hmiss
  | f0 :: fs, v0 :: vs, vals2, i, hmiss, hlen, hagree => by
    cases vals2 with
    | nil => simp at hlen
    | cons w0 ws =>
      have hw : w0 = v0 := by
        have h0 := hagree 0 (Nat.zero_le i)
        simpa using h0
      subst hw
      simp only [first_missing_idx] at hmiss ⊢
      by_cases hc : (!is_option_type f0.ty && w0.isNone) = true
      · simp only [if_pos hc] at hmiss ⊢
        exact hmiss
      · simp only [if_neg hc] at hmiss ⊢
        simp [Option.map_eq_some'] at hmiss
        obtain ⟨i0, hi0, hi⟩ := hmiss
        subst hi
        have hlen2 : ws.length = vs.length := by simpa using hlen
        have hagree2 : ∀ j, j ≤ i0 → ws[j]? = vs[j]? := by
          intro j hj
          have := hagree (j + 1) (Nat.succ_le_succ hj)
          simpa using this
        have := first_missing_agrees fs vs ws i0 hi0 hlen2 hagree2
        simp [this, Option.map_eq_some']

/-- C4: when at least one required-origin field is absent (index `i` being
the first such, in original field-declaration order), the generated
reconstruction returns exactly the error case of that field; moreover the
result is the same for every instance that agrees with the given one up to
and including index `i`, so no field after the first missing one influences
the outcome (first-failure-wins, never an aggregate). -/
theorem try_from_first_failure {α : Type} (fields : List Field)
    (vals : List (Option α)) (i : Nat)
    (hmiss : first_missing_idx fields vals = some i) :
    ∃ f, fields[i]? = some f ∧ is_option_type f.ty = false ∧
      vals[i]? = some none ∧
      try_from_fields fields vals
        = Except.error (to_pascal_case f.ident ++ "Missing") ∧
      ∀ vals2 : List (Option α), vals2.length = vals.length →
        (∀ j, j ≤ i → vals2[j]? = vals[j]?) →
        try_from_fields fields vals2
          = Except.error (to_pascal_case f.ident ++ "Missing") := by
  obtain ⟨f, hf, hreq, hv, htry⟩ :=
    try_from_error_at_first_missing fields vals i hmiss
  refine ⟨f, hf, hreq, hv, htry, ?_⟩
  intro vals2 hlen hagree
  have hmiss2 := first_missing_agrees fields vals vals2 i hmiss hlen hagree
  obtain ⟨f2, hf2, _, _, htry2⟩ :=
    try_from_error_at_first_missing fields vals2 i hmiss2
  have h12 : some f = some f2 := hf.symm.trans hf2
  injection h12 with h12
  rw [← h12] at htry2
  exact htry2

/-- Witness for C4: with every field of the example instance absent, the
reconstruction error is the case of the first required field `field_i32`,
and stays so for any instance agreeing at index 0. -/
theorem try_from_first_failure_witness :
    ∃ f, ex_fields[0]? = some f ∧ is_option_type f.ty = false ∧
      ([none, none, none] : List (Option Nat))[0]? = some none ∧
      try_from_fields ex_fields ([none, none, none] : List (Option Nat))
        = Except.error (to_pascal_case f.ident ++ "Missing") ∧
      ∀ vals2 : List (Option Nat),
        vals2.length = ([none, none, none] : List (Option Nat)).length →
        (∀ j, j ≤ 0 → vals2[j]? = ([none, none, none] : List (Option Nat))[j]?) →
        try_from_fields ex_fields vals2
          = Except.error (to_pascal_case f.ident ++ "Missing") :=
  try_from_first_failure ex_fields ([none, none, none] : List (Option Nat)) 0 rfl

end Optifier
